import Mathlib

/-!
Verification of the jumpboot IPC core (Go) against its natural-language
specification.  Each Go function relevant to the frozen claims is shallowly
embedded as an executable Lean definition; byte streams are `List Nat`
(each element `< 256`), text is `List Char`/`String`, machine integers are
`Int` with explicit two's-complement wraparound where overflow matters.
-/

namespace Jumpboot

/-! ### FramedTransport (ipcmessagepack.go)

`MsgpackTransport.Send` writes a 4-byte big-endian length prefix followed by
the payload; `Receive` reads 4 bytes, decodes the length, then reads exactly
that many bytes (`io.ReadFull`).  We model the pipe as a list of byte values
and the flushes (which do not change the byte sequence) are elided. -/

/-- Embeds `binary.BigEndian.PutUint32`: the 4 big-endian bytes of
`uint32(n)` (Go truncates the 64-bit length to 32 bits). -/
def putUint32BE (n : Nat) : List Nat :=
  [n / 2 ^ 24 % 256, n / 2 ^ 16 % 256, n / 2 ^ 8 % 256, n % 256]

/-- Embeds `binary.BigEndian.Uint32` on a 4-byte header. -/
def getUint32BE (b0 b1 b2 b3 : Nat) : Nat :=
  b0 * 2 ^ 24 + b1 * 2 ^ 16 + b2 * 2 ^ 8 + b3

/-- Embeds `MsgpackTransport.Send`: the bytes this call appends to the pipe
are the length header (of `uint32(len(data))`) followed by the payload. -/
def transportSend (data : List Nat) : List Nat :=
  putUint32BE (data.length % 2 ^ 32) ++ data

/-- Embeds `MsgpackTransport.Receive` on a byte stream: read exactly 4 header
bytes, decode the big-endian length, read exactly that many payload bytes.
Returns the payload together with the unconsumed rest of the stream; `none`
models `io.ReadFull` failing with EOF.  (The buffer-pool branch for small
frames copies the bytes and returns the same payload, so it is not a
separate case.) -/
def transportReceive (s : List Nat) : Option (List Nat × List Nat) :=
  match s with
  | b0 :: b1 :: b2 :: b3 :: rest =>
      let n := getUint32BE b0 b1 b2 b3
      if n ≤ rest.length then some (rest.take n, rest.drop n) else none
  | _ => none

/-! ### ReplChannel submission payloads (pyprocrepl.go)

`Execute` normalizes the submitted code with
`strings.ReplaceAll(code, "\r\n", "\n")`, then
`strings.ReplaceAll(code, "\n\n", "\n")`, then
`strings.TrimRight(code, " \t\n\r")`, and appends `DELIMITER`.
`ExecuteWithTimeout` performs only the `TrimRight` before appending
`DELIMITER`.  Text is modelled as `List Char`. -/

/-- Embeds Go `strings.ReplaceAll(s, string([a, b]), string([r]))` for a
two-character pattern: left-to-right, non-overlapping, scanning resumes
after each replacement. -/
def replace2 (a b r : Char) : List Char → List Char
  | [] => []
  | [x] => [x]
  | x :: y :: rest =>
      if x = a ∧ y = b then r :: replace2 a b r rest
      else x :: replace2 a b r (y :: rest)

/-- Embeds Go `strings.TrimRight(s, cut)`: removes trailing characters that
belong to the cutset. -/
def goTrimRight (l : List Char) (cut : List Char) : List Char :=
  (l.reverse.dropWhile (fun c => cut.contains c)).reverse

/-- The cutset `" \t\n\r"` used by both Execute paths. -/
def trimCutset : List Char := [' ', '\t', '\n', '\r']

/-- The REPL output delimiter `DELIMITER = "\x01\x02\x03\n"`. -/
def DELIMITER : List Char := ['\x01', '\x02', '\x03', '\n']

/-- The Windows variant `WINDELIMITER = "\x01\x02\x03\r\n"`. -/
def WINDELIMITER : List Char := ['\x01', '\x02', '\x03', '\r', '\n']

/-- Embeds the code-payload preparation in `Execute` (pyprocrepl.go lines
140-152): CRLF→LF, `"\n\n"`→`"\n"`, trim trailing whitespace, append the
delimiter.  These are exactly the bytes written for the submission. -/
def executePayload (code : List Char) : List Char :=
  goTrimRight (replace2 '\n' '\n' '\n' (replace2 '\r' '\n' '\n' code)) trimCutset ++ DELIMITER

/-- Embeds the code-payload preparation in `ExecuteWithTimeout` (pyprocrepl.go
lines 242-250): only the trailing-whitespace trim, then the delimiter. -/
def executeWithTimeoutPayload (code : List Char) : List Char :=
  goTrimRight code trimCutset ++ DELIMITER

/-- Modelled from the claim's words, for comparison with the source-derived
payload functions: the submitted code with CRLF replaced by LF, double
newlines collapsed, trailing whitespace trimmed, and the sentinel appended. -/
def claimNormalizedPayload (code : List Char) : List Char :=
  goTrimRight (replace2 '\n' '\n' '\n' (replace2 '\r' '\n' '\n' code)) trimCutset ++ DELIMITER

/-! ### QueueProcess message loop (pyprocqueue.go)

`messageLoop` decodes each received frame into a map.  If it holds a string
`request_id` that does not start with `"py-"`, the frame is treated as a
response: when the id has an entry in `responseMap` the frame is sent into
that channel and the entry deleted, otherwise nothing happens; either way the
loop continues.  Otherwise the frame is treated as a guest command: a missing
`request_id` is only warned about; with a `request_id` and a `command` field
the command is dispatched to `processCommand` in a worker goroutine. -/

/-- A decoded wire frame, as inspected by `messageLoop`: the `request_id` and
`command` fields when present with string type.  The `data` payload is opaque
to the loop and modelled as an optional string. -/
structure Message where
  request_id : Option String
  command : Option String
  data : Option String
  deriving DecidableEq, Repr

/-- The `responseMap` keys of a `QueueProcess`: the request ids with a
pending response slot. -/
structure QPState where
  pending : List String
  deriving DecidableEq, Repr

/-- What one iteration of `messageLoop` did with a decoded frame. -/
inductive LoopAction where
  | delivered (id : String) (m : Message)
  | droppedResponse (id : String)
  | dispatched (cmd : String) (id : String)
  | ignoredNoCommand (id : String)
  | warnedNoRequestID
  deriving DecidableEq, Repr

/-- `true` exactly on `LoopAction.delivered`. -/
def LoopAction.isDelivered : LoopAction → Bool
  | .delivered _ _ => true
  | _ => false

/-- `true` exactly on `LoopAction.dispatched`. -/
def LoopAction.isDispatched : LoopAction → Bool
  | .dispatched _ _ => true
  | _ => false

/-- Embeds Go `strings.HasPrefix(s, pre)`. -/
def goHasPrefix (s pre : String) : Bool :=
  pre.toList.isPrefixOf s.toList

/-- Embeds one iteration of `messageLoop` (pyprocqueue.go lines 404-430) on a
decoded frame: the response branch guarded by
`ok && !strings.HasPrefix(requestID, "py-")`, then the command branch. -/
def messageLoopStep (s : QPState) (m : Message) : QPState × LoopAction :=
  match m.request_id with
  | some rid =>
      if goHasPrefix rid "py-" = false then
        if s.pending.contains rid then
          ({ pending := s.pending.filter (fun x => x ≠ rid) }, .delivered rid m)
        else
          (s, .droppedResponse rid)
      else
        match m.command with
        | some cmd => (s, .dispatched cmd rid)
        | none => (s, .ignoredNoCommand rid)
  | none => (s, .warnedNoRequestID)

/-! ### SendCommand response waiting (pyprocqueue.go lines 549-590)

With `waitForResponse` true, `SendCommand` installs a buffered channel under
the request id in `responseMap` before sending.  With `timeoutSeconds <= 0`
it then executes `response := <-responseChan` — there is no timer, the call
blocks until the message loop delivers.  With a positive timeout it races the
channel read against `time.After`; when the timer wins it deletes the
`responseMap` entry and returns a timeout error.  The environment is
abstracted by `arrival` (the response frame the guest eventually produces for
this id, if any) and `withinWindow` (whether that frame beats a positive
timer).  Delivery by the message loop removes the map entry, exactly as in
`messageLoopStep`. -/

/-- Result of the waiting phase of `SendCommand`. -/
inductive SCOutcome where
  | delivered (m : Message)
  | timeoutErr
  | blocksForever
  deriving DecidableEq, Repr

/-- Embeds the `responseMap` installation: with `waitForResponse` true the
fresh request id is inserted before the request is sent. -/
def sendCommandInstall (s : QPState) (rid : String) (waitForResponse : Bool) : QPState :=
  if waitForResponse then { pending := s.pending ++ [rid] } else s

/-- The `timeoutSeconds <= 0` branch of `SendCommand`: a bare channel
receive.  The call blocks until the message loop delivers (the delivery
removed the map entry); if no response ever arrives, it blocks forever. -/
def awaitNoTimer (s : QPState) (rid : String) (arrival : Option Message) :
    QPState × SCOutcome :=
  match arrival with
  | some m => ({ pending := s.pending.filter (fun x => x ≠ rid) }, .delivered m)
  | none => (s, .blocksForever)

/-- The positive-timeout branch of `SendCommand`: `select` between the
channel receive and `time.After`; when the timer wins, the map entry is
deleted and a timeout error produced. -/
def awaitWithTimer (s : QPState) (rid : String) (arrival : Option Message)
    (withinWindow : Bool) : QPState × SCOutcome :=
  match arrival, withinWindow with
  | some m, true => ({ pending := s.pending.filter (fun x => x ≠ rid) }, .delivered m)
  | some _, false => ({ pending := s.pending.filter (fun x => x ≠ rid) }, .timeoutErr)
  | none, _ => ({ pending := s.pending.filter (fun x => x ≠ rid) }, .timeoutErr)

/-- Embeds the waiting phase of `SendCommand` for `waitForResponse = true`:
final `responseMap` state and outcome. -/
def sendCommandAwait (s : QPState) (rid : String) (timeoutSeconds : Int)
    (arrival : Option Message) (withinWindow : Bool) : QPState × SCOutcome :=
  if timeoutSeconds ≤ 0 then awaitNoTimer s rid arrival
  else awaitWithTimer s rid arrival withinWindow

/-! ### processCommand and its worker goroutine (pyprocqueue.go lines 420-481)

The dispatch worker is
`go func() { defer jq.processingWg.Done(); jq.processCommand(command, data, requestID) }()`.
`processCommand` looks up the handler (specific handler, else default
handler, else an unknown-command error), invokes it and sends
`{result, request_id}` or `{error, request_id}` back.  Neither the worker
nor `processCommand` contains a `recover()`: by Go semantics an unrecovered
panic in a goroutine first runs the deferred calls (releasing the
wait-group slot) and then terminates the entire program. -/

/-- Behaviour of a registered handler at the invocation in question. -/
inductive HandlerResult where
  | ok (v : String)
  | err (e : String)
  | panics (msg : String)
  deriving DecidableEq, Repr

/-- A response frame sent back to the guest by `processCommand`. -/
structure ResponseMsg where
  result : Option String
  error : Option String
  request_id : String
  deriving DecidableEq, Repr

/-- The handler `processCommand` ends up invoking: the registered handler for
the command if present, else the default handler if set. -/
def effectiveHandler (handlers : List (String × HandlerResult))
    (defaultHandler : Option HandlerResult) (command : String) : Option HandlerResult :=
  match handlers.lookup command with
  | some h => some h
  | none => defaultHandler

/-- Embeds `processCommand`: handler lookup and invocation, then the response
sent back when `requestID` is non-empty.  A handler panic propagates
(`Except.error`) — there is no `recover` in `processCommand`. -/
def processCommand (handlers : List (String × HandlerResult))
    (defaultHandler : Option HandlerResult) (command : String) (requestID : String) :
    Except String (Option ResponseMsg) :=
  match effectiveHandler handlers defaultHandler command with
  | some (.panics msg) => .error msg
  | some (.ok v) =>
      if requestID ≠ "" then .ok (some ⟨some v, none, requestID⟩) else .ok none
  | some (.err e) =>
      if requestID ≠ "" then .ok (some ⟨none, some e, requestID⟩) else .ok none
  | none =>
      if requestID ≠ "" then
        .ok (some ⟨none, some ("unknown command: " ++ command), requestID⟩)
      else .ok none

/-- Observable outcome of the worker goroutine. -/
structure WorkerOutcome where
  wgReleased : Bool
  response : Option ResponseMsg
  processAlive : Bool
  deriving DecidableEq, Repr

/-- Embeds the worker goroutine spawned by `messageLoop`: the deferred
`processingWg.Done()` always runs; an escaping panic (no `recover` anywhere
on the goroutine's stack) then terminates the whole Go process. -/
def runWorker (handlers : List (String × HandlerResult))
    (defaultHandler : Option HandlerResult) (command : String) (requestID : String) :
    WorkerOutcome :=
  match processCommand handlers defaultHandler command requestID with
  | .ok resp => ⟨true, resp, true⟩
  | .error _ => ⟨true, none, false⟩

/-! ### REPLPythonProcess lifecycle (pyprocrepl.go)

`ExecuteWithTimeout` races a reader goroutine against `time.After(timeout)`;
on deadline it calls `Terminate`, sets `closed = true` and returns a timeout
error.  `Execute`, `ExecuteWithTimeout` and `Close` all first check `closed`
under the mutex and return the channel-closed error before writing
anything. -/

/-- Host-side state of a `REPLPythonProcess`. -/
structure REPLState where
  closed : Bool
  combinedOutput : Bool
  deriving DecidableEq, Repr

/-- Errors surfaced by the REPL operations. -/
inductive REPLErr where
  | channelClosed
  | timedOut
  | ioErr
  deriving DecidableEq, Repr

/-- Which event won `ExecuteWithTimeout`'s select: the reader goroutine
produced the output, the reader failed, or the wall-clock deadline fired. -/
inductive ReadRace where
  | output (s : String)
  | readErr
  | deadline
  deriving DecidableEq, Repr

/-- Effect of one REPL operation: resulting state, returned value or error,
whether the submission bytes were written, and whether the Python process
was terminated. -/
structure ExecEffect where
  state : REPLState
  result : Except REPLErr String
  wrote : Bool
  terminated : Bool
  deriving Repr

/-- Embeds `ExecuteWithTimeout` (pyprocrepl.go lines 229-302): the closed
check precedes any write; on deadline the child is terminated, the state
marked closed and a timeout error returned. -/
def executeWithTimeoutStep (st : REPLState) (combined : Bool) (race : ReadRace) :
    ExecEffect :=
  if st.closed then ⟨st, .error .channelClosed, false, false⟩
  else
    match race with
    | .output s => ⟨{ closed := false, combinedOutput := combined }, .ok s, true, false⟩
    | .readErr => ⟨{ closed := false, combinedOutput := combined }, .error .ioErr, true, false⟩
    | .deadline =>
        ⟨{ closed := true, combinedOutput := combined }, .error .timedOut, true, true⟩

/-- Embeds the closed-state gate of `Execute` (pyprocrepl.go lines 117-123):
a closed REPL returns the channel-closed error before writing anything.  An
open REPL proceeds to write the submission (outcome abstracted by
`outcome`). -/
def executeStep (st : REPLState) (combined : Bool) (outcome : Except REPLErr String) :
    ExecEffect :=
  if st.closed then ⟨st, .error .channelClosed, false, false⟩
  else ⟨{ closed := false, combinedOutput := combined }, outcome, true, false⟩

/-- Embeds `Close` (pyprocrepl.go lines 304-316): on a closed REPL it returns
the channel-closed error; otherwise it marks the REPL closed and terminates
the child. -/
def closeStep (st : REPLState) : ExecEffect :=
  if st.closed then ⟨st, .error .channelClosed, false, false⟩
  else ⟨{ closed := true, combinedOutput := st.combinedOutput }, .ok "", false, true⟩

/-! ### PythonProcess.Terminate (unnamed Go file, `Terminate`)

`Terminate` returns nil when `pp.Cmd.Process == nil` (the command was never
started).  Otherwise it sends SIGTERM via `Process.Signal`; a signal error
is returned as-is.  In Go, `Cmd.Process` stays non-nil after the child
exits, and `Process.Signal` on a child that was already waited on returns
the `os: process already finished` error — so `Terminate` on an
already-reaped child returns that error, contradicting its own doc comment
("Returns nil if the process wasn't running or has already finished").
After a successful signal it waits; if the child does not exit within 5
seconds it is killed (`Process.Kill`), the wait result is drained and the
`Kill` result (nil) is returned. -/

/-- Phase of the child process underlying a `PythonProcess`. -/
inductive ProcPhase where
  | notStarted
  | running
  | exitedNotWaited
  | exitedWaited
  deriving DecidableEq, Repr

/-- Errors involved in termination: `processDone` is Go's
`os: process already finished`; `childErr` stands for a non-nil `Cmd.Wait`
result. -/
inductive TermError where
  | processDone
  | childErr
  deriving DecidableEq, Repr

/-- Embeds `os.Process.Signal` as used here: succeeds on a running or
exited-but-unreaped child, fails with `processDone` once `Wait` has
completed. -/
def signalTerm (phase : ProcPhase) : Option TermError :=
  match phase with
  | .exitedWaited => some .processDone
  | _ => none

/-- Effect of `Terminate`: return value (`none` is Go `nil`), whether SIGTERM
was sent, and whether the child was force-killed. -/
structure TerminateEffect where
  result : Option TermError
  sigTermSent : Bool
  killed : Bool
  deriving DecidableEq, Repr

/-- Embeds `PythonProcess.Terminate`.  `exitsWithinGrace` abstracts whether
the child exits within the 5-second window; `waitResult` is the result of
`Cmd.Wait` (`none` = nil).  In the force-kill branch the code returns the
`Kill` result (nil on success) and discards the drained wait result. -/
def terminateProc (phase : ProcPhase) (exitsWithinGrace : Bool)
    (waitResult : Option TermError) : TerminateEffect :=
  match phase with
  | .notStarted => ⟨none, false, false⟩
  | .exitedWaited => ⟨some .processDone, false, false⟩
  | .exitedNotWaited => ⟨waitResult, true, false⟩
  | .running =>
      if exitsWithinGrace then ⟨waitResult, true, false⟩
      else ⟨none, true, true⟩

/-! ### MsgpackTransport.Flush (ipcmessagepack.go lines 126-134)

`Flush` type-asserts the writer to `interface{ Flush() error }`; when the
assertion succeeds and the inner flush returns a non-nil error, the error
branch executes `return nil`, discarding the error; every other path also
returns nil. -/

/-- State of the underlying writer as seen by `MsgpackTransport.Flush`:
`none` when the writer does not implement `Flush`, otherwise the result of
calling it (`none` = success, `some e` = error `e`). -/
def transportFlush (flusher : Option (Option String)) : Option String :=
  match flusher with
  | none => none
  | some none => none
  | some (some _) => none

/-! ### The Execute read loop (pyprocrepl.go lines 170-204)

The loop reads one line at a time with `reader.ReadString('\n')` (the
returned chunk includes the newline; at EOF the final chunk has no newline
and the error is `io.EOF`), appends it to the accumulated output, and stops
as soon as the accumulated buffer ends with the delimiter, returning the
buffer with the trailing delimiter removed (`strings.TrimSuffix`) and
trailing `"\n\r"` characters trimmed.  EOF before the delimiter is an
error.  The loop is embedded with explicit fuel (one unit per line read,
`stream.length + 1` is always sufficient since every read consumes at least
one character); the no-occurrence theorem below holds for every fuel. -/

/-- Embeds `bufio.Reader.ReadString('\n')` on the remaining stream: the
chunk up to and including the first newline, the rest, and whether the
newline was found (`false` models the `io.EOF` case). -/
def readLine : List Char → List Char × List Char × Bool
  | [] => ([], [], false)
  | c :: cs =>
      if c = '\n' then ([c], cs, true)
      else
        let r := readLine cs
        (c :: r.1, r.2.1, r.2.2)

/-- Embeds Go `strings.TrimSuffix(l, suf)`. -/
def goTrimSuffix (l suf : List Char) : List Char :=
  if suf <:+ l then l.take (l.length - suf.length) else l

/-- The post-processing applied when the delimiter is seen: strip the
trailing delimiter, then trim trailing `"\n\r"`. -/
def stripDelim (delim acc : List Char) : List Char :=
  goTrimRight (goTrimSuffix acc delim) ['\n', '\r']

/-- Embeds the `Execute` read loop, parameterized by the delimiter
(`DELIMITER` on Unix, `WINDELIMITER` on Windows) and by fuel. -/
def readLoopFuel (delim : List Char) : Nat → List Char → List Char → Option (List Char)
  | 0, _, _ => none
  | fuel + 1, acc, stream =>
      let r := readLine stream
      let acc' := acc ++ r.1
      if delim <:+ acc' then some (stripDelim delim acc')
      else if r.2.2 then readLoopFuel delim fuel acc' r.2.1
      else none

/-- The `Execute` read loop on the Unix delimiter, with sufficient fuel. -/
def executeReadOutput (stream : List Char) : Option (List Char) :=
  readLoopFuel DELIMITER (stream.length + 1) [] stream

/-- The `Execute` read loop on the Windows delimiter, with sufficient
fuel. -/
def executeReadOutputWin (stream : List Char) : Option (List Char) :=
  readLoopFuel WINDELIMITER (stream.length + 1) [] stream

/-- Substring occurrence test: `occurs pat s` is true iff `pat` occurs
contiguously inside `s`. -/
def occurs (pat : List Char) : List Char → Bool
  | [] => pat.isEmpty
  | c :: rest => pat.isPrefixOf (c :: rest) || occurs pat rest

/-! ### generateRequestID (pyprocqueue.go lines 483-490)

`generateRequestID` renders `fmt.Sprintf("req-%d", jq.nextID)` and
increments `nextID` under `idMutex`.  `nextID` is a Go `int64` initialized
to 1, so the increment wraps modulo `2^64` in two's complement: the value
observed by the `i`-th call (counting from 0) is `wrap64 (1 + i)`.  Decimal
rendering of `%d` is embedded as `goFormatInt`. -/

/-- Two's-complement wraparound of an integer to the `int64` range. -/
def wrap64 (n : Int) : Int := (n + 2 ^ 63) % 2 ^ 64 - 2 ^ 63

/-- The value of `nextID` observed by the `i`-th call (0-based) of
`generateRequestID`: starts at 1, each call increments with `int64`
wraparound. -/
def nextIDAfter : Nat → Int
  | 0 => 1
  | n + 1 => wrap64 (nextIDAfter n + 1)

/-- The decimal digit character for `d`. -/
def digitChar (d : Nat) : Char := Char.ofNat (48 + d)

/-- Decimal digit expansion (most significant first), with fuel; `n + 1`
units always suffice. -/
def goDigitsAux : Nat → Nat → List Char
  | 0, _ => []
  | fuel + 1, n =>
      if n < 10 then [digitChar n]
      else goDigitsAux fuel (n / 10) ++ [digitChar (n % 10)]

/-- The decimal digits of `n`, most significant first. -/
def goDigits (n : Nat) : List Char := goDigitsAux (n + 1) n

/-- Embeds Go `fmt.Sprintf("%d", n)` for an `int64` value. -/
def goFormatInt (n : Int) : List Char :=
  if n < 0 then '-' :: goDigits n.natAbs else goDigits n.toNat

/-- The request id returned by the `i`-th call (0-based) of
`generateRequestID` on a fresh `QueueProcess`. -/
def requestIDAt (i : Nat) : String :=
  ⟨'r' :: 'e' :: 'q' :: '-' :: goFormatInt (nextIDAfter i)⟩

/-- Value of a digit string read back (decimal). -/
def digitsVal (l : List Char) : Nat := l.foldl (fun a c => 10 * a + (c.toNat - 48)) 0

theorem getUint32BE_putUint32BE (n : Nat) (h : n < 2 ^ 32) :
    getUint32BE (n / 2 ^ 24 % 256) (n / 2 ^ 16 % 256) (n / 2 ^ 8 % 256) (n % 256) = n := by
  simp only [getUint32BE]
  omega

/-- Claim C3: framing round-trip.  For every payload whose length fits in an
unsigned 32-bit integer, `Receive` applied to the stream produced by
`Send(x)` (followed by any further stream contents) yields exactly `x` and
consumes exactly the 4 header bytes plus `x.length` payload bytes. -/
theorem framing_roundtrip (data extra : List Nat) (h : data.length < 2 ^ 32) :
    transportReceive (transportSend data ++ extra) = some (data, extra) := by
  have hn : data.length % 2 ^ 32 = data.length := Nat.mod_eq_of_lt h
  simp only [transportSend, putUint32BE, List.cons_append, List.nil_append, transportReceive]
  rw [getUint32BE_putUint32BE _ (Nat.mod_lt _ (by norm_num)), hn]
  rw [if_pos (by simp)]
  simp [List.take_left, List.drop_left]

/-- Witness for `framing_roundtrip` at the concrete payload `[1, 2, 3]`. -/
theorem framing_roundtrip_witness :
    ([1, 2, 3] : List Nat).length < 2 ^ 32 ∧
      transportReceive (transportSend [1, 2, 3] ++ [9]) = some ([1, 2, 3], [9]) :=
  ⟨by norm_num, framing_roundtrip [1, 2, 3] [9] (by norm_num)⟩

/-- Counterexample to claim C6 as stated: `ExecuteWithTimeout` does not
replace CRLF with LF — on the submission `"a\r\nb"` the bytes it writes
differ from the claimed normalized form. -/
theorem repl_payload_normalization_cex :
    executeWithTimeoutPayload ("a\r\nb".toList) ≠ claimNormalizedPayload ("a\r\nb".toList) := by
  decide

/-- Claim C6 (amended): `Execute` writes exactly the claimed normalization of
the submitted code (CRLF→LF, double newlines collapsed, trailing whitespace
trimmed) followed by the sentinel, while `ExecuteWithTimeout` only trims
trailing whitespace before appending the sentinel (no CRLF or blank-line
collapsing). -/
theorem repl_payload_normalization (code : List Char) :
    executePayload code = claimNormalizedPayload code ∧
      executeWithTimeoutPayload code = goTrimRight code trimCutset ++ DELIMITER :=
  ⟨rfl, rfl⟩

/-- Counterexample to claim C1 as stated: a frame whose `request_id` is
`"req-99"` (host prefix) with no pending entry — and even carrying a
`command` field — is neither delivered nor dispatched: the loop silently
drops it. -/
theorem message_loop_dichotomy_cex :
    (messageLoopStep { pending := [] }
        { request_id := some "req-99", command := some "ping", data := none }).2
      = .droppedResponse "req-99" ∧
    ((messageLoopStep { pending := [] }
        { request_id := some "req-99", command := some "ping", data := none }).2.isDelivered
      = false) ∧
    ((messageLoopStep { pending := [] }
        { request_id := some "req-99", command := some "ping", data := none }).2.isDispatched
      = false) := by
  decide

/-- Claim C1 (amended): for every decoded frame with a string `request_id`,
exactly one of four things happens: the id lacks the `"py-"` prefix and has a
pending entry — the entry is removed and the frame delivered into it; the id
lacks the prefix and has no pending entry — the frame is silently dropped
(never dispatched, even if it carries a `command`); the id has the `"py-"`
prefix and the frame carries a `command` — it is dispatched as a
guest-originated request; the id has the prefix but no `command` — it is
ignored. -/
theorem message_loop_dispatch (s : QPState) (m : Message) (rid : String)
    (h : m.request_id = some rid) :
    (goHasPrefix rid "py-" = false ∧ s.pending.contains rid = true ∧
        messageLoopStep s m =
          ({ pending := s.pending.filter (fun x => x ≠ rid) }, .delivered rid m)) ∨
    (goHasPrefix rid "py-" = false ∧ s.pending.contains rid = false ∧
        messageLoopStep s m = (s, .droppedResponse rid)) ∨
    (goHasPrefix rid "py-" = true ∧ (∃ cmd, m.command = some cmd ∧
        messageLoopStep s m = (s, .dispatched cmd rid))) ∨
    (goHasPrefix rid "py-" = true ∧ m.command = none ∧
        messageLoopStep s m = (s, .ignoredNoCommand rid)) := by
  obtain ⟨mrid, mcmd, mdata⟩ := m
  simp only [Message.request_id] at h
  subst h
  by_cases hp : goHasPrefix rid "py-" = false
  · by_cases hc : s.pending.contains rid = true
    · have hm : rid ∈ s.pending := by simpa using hc
      exact Or.inl ⟨hp, hc, by simp [messageLoopStep, hp, hc, hm]⟩
    · have hc' : s.pending.contains rid = false := by simpa using hc
      have hm : rid ∉ s.pending := by simpa using hc
      exact Or.inr (Or.inl ⟨hp, hc', by simp [messageLoopStep, hp, hc', hm]⟩)
  · have hp' : goHasPrefix rid "py-" = true := by simpa using hp
    cases mcmd with
    | some cmd =>
        exact Or.inr (Or.inr (Or.inl ⟨hp', cmd, rfl, by simp [messageLoopStep, hp']⟩))
    | none => exact Or.inr (Or.inr (Or.inr ⟨hp', rfl, by simp [messageLoopStep, hp']⟩))

/-- Witness for `message_loop_dispatch`: at the concrete state
`{pending := ["req-1"]}` a frame with `request_id = "req-1"` is delivered
and the pending entry removed. -/
theorem message_loop_dispatch_witness :
    messageLoopStep { pending := ["req-1"] }
        { request_id := some "req-1", command := none, data := none } =
      ({ pending := [] },
        .delivered "req-1" { request_id := some "req-1", command := none, data := none }) := by
  rcases message_loop_dispatch { pending := ["req-1"] }
      { request_id := some "req-1", command := none, data := none } "req-1" rfl with h | h | h | h
  · rw [h.2.2]; decide
  · exact absurd h.2.1 (by decide)
  · exact absurd h.1 (by decide)
  · exact absurd h.1 (by decide)

theorem contains_filter_ne_self (l : List String) (rid : String) :
    (l.filter (fun x => x ≠ rid)).contains rid = false := by
  simp [List.contains, List.elem_eq_mem, List.mem_filter]

/-- Claim C2: with `waitForResponse` true — (i) a non-positive
`timeoutSeconds` blocks indefinitely until a response is delivered (no timer
exists); (ii) with a positive timeout and no response inside the window, the
pending entry for the request id is removed and a timeout error returned;
(iii) a response frame for that id arriving after the timeout finds no
pending entry: the message loop silently drops it and delivers nothing. -/
theorem send_command_timeout (s0 : QPState) (rid : String) (timeoutSeconds : Int)
    (arrival : Option Message) (withinWindow : Bool) (m : Message) :
    (timeoutSeconds ≤ 0 → arrival = none →
        (sendCommandAwait (sendCommandInstall s0 rid true) rid timeoutSeconds
            arrival withinWindow).2 = .blocksForever) ∧
    (timeoutSeconds ≤ 0 → arrival = some m →
        (sendCommandAwait (sendCommandInstall s0 rid true) rid timeoutSeconds
            arrival withinWindow).2 = .delivered m) ∧
    (0 < timeoutSeconds → arrival = none ∨ withinWindow = false →
        (sendCommandAwait (sendCommandInstall s0 rid true) rid timeoutSeconds
            arrival withinWindow).2 = .timeoutErr ∧
        (sendCommandAwait (sendCommandInstall s0 rid true) rid timeoutSeconds
            arrival withinWindow).1.pending.contains rid = false) ∧
    (0 < timeoutSeconds → arrival = none ∨ withinWindow = false →
      m.request_id = some rid → goHasPrefix rid "py-" = false →
        messageLoopStep
            (sendCommandAwait (sendCommandInstall s0 rid true) rid timeoutSeconds
              arrival withinWindow).1 m =
          ((sendCommandAwait (sendCommandInstall s0 rid true) rid timeoutSeconds
              arrival withinWindow).1, .droppedResponse rid)) := by
  refine ⟨?_, ?_, ?_, ?_⟩
  · intro ht ha
    simp [sendCommandAwait, awaitNoTimer, ht, ha]
  · intro ht ha
    simp [sendCommandAwait, awaitNoTimer, ht, ha]
  · intro ht ha
    have ht' : ¬ timeoutSeconds ≤ 0 := by omega
    rcases ha with ha | ha
    · constructor
      · simp [sendCommandAwait, awaitWithTimer, ht', ha]
      · simp [sendCommandAwait, sendCommandInstall, awaitWithTimer, ht', ha, contains_filter_ne_self]
    · constructor
      · cases arrival <;> simp [sendCommandAwait, awaitWithTimer, ht', ha]
      · cases arrival <;>
          simp [sendCommandAwait, sendCommandInstall, awaitWithTimer, ht', ha, contains_filter_ne_self]
  · intro ht ha hm hpre
    have hcontains :
        (sendCommandAwait (sendCommandInstall s0 rid true) rid timeoutSeconds
            arrival withinWindow).1.pending.contains rid = false := by
      have ht' : ¬ timeoutSeconds ≤ 0 := by omega
      rcases ha with ha | ha
      · simp [sendCommandAwait, sendCommandInstall, awaitWithTimer, ht', ha, contains_filter_ne_self]
      · cases arrival <;>
          simp [sendCommandAwait, sendCommandInstall, awaitWithTimer, ht', ha, contains_filter_ne_self]
    rcases message_loop_dispatch
        (sendCommandAwait (sendCommandInstall s0 rid true) rid timeoutSeconds
          arrival withinWindow).1 m rid hm with h | h | h | h
    · rw [h.2.1] at hcontains; cases hcontains
    · exact h.2.2
    · rw [h.1] at hpre; cases hpre
    · rw [h.1] at hpre; cases hpre

/-- Witness for `send_command_timeout`: at `timeoutSeconds = 5` with no
arrival the outcome is a timeout with the pending entry removed, and a late
response frame for `"req-1"` is dropped; at `timeoutSeconds = 0` a delivered
response is returned. -/
theorem send_command_timeout_witness :
    ((sendCommandAwait (sendCommandInstall { pending := [] } "req-1" true) "req-1" 5
        none false).2 = .timeoutErr ∧
      (sendCommandAwait (sendCommandInstall { pending := [] } "req-1" true) "req-1" 5
        none false).1.pending.contains "req-1" = false) ∧
    (messageLoopStep
        (sendCommandAwait (sendCommandInstall { pending := [] } "req-1" true) "req-1" 5
          none false).1
        { request_id := some "req-1", command := none, data := none } =
      ((sendCommandAwait (sendCommandInstall { pending := [] } "req-1" true) "req-1" 5
          none false).1, .droppedResponse "req-1")) ∧
    ((sendCommandAwait (sendCommandInstall { pending := [] } "req-1" true) "req-1" 0
        (some { request_id := some "req-1", command := none, data := none }) false).2 =
      .delivered { request_id := some "req-1", command := none, data := none }) := by
  refine ⟨?_, ?_, ?_⟩
  · exact (send_command_timeout { pending := [] } "req-1" 5 none false
      { request_id := some "req-1", command := none, data := none }).2.2.1
      (by norm_num) (Or.inl rfl)
  · exact (send_command_timeout { pending := [] } "req-1" 5 none false
      { request_id := some "req-1", command := none, data := none }).2.2.2
      (by norm_num) (Or.inl rfl) rfl (by decide)
  · exact (send_command_timeout { pending := [] } "req-1" 0
      (some { request_id := some "req-1", command := none, data := none }) false
      { request_id := some "req-1", command := none, data := none }).2.1
      (by norm_num) rfl

/-- Counterexample to claim C4 as stated: a handler that panics is NOT caught
and converted into an error response — at the concrete command `"boom"`
whose handler panics, no response is sent and the process does not survive. -/
theorem handler_panic_cex :
    (runWorker [("boom", .panics "kaboom")] none "boom" "py-7").response = none ∧
    (runWorker [("boom", .panics "kaboom")] none "boom" "py-7").processAlive = false ∧
    (runWorker [("boom", .panics "kaboom")] none "boom" "py-7").wgReleased = true := by
  decide

/-- Claim C4 (amended): for every guest-originated command whose invoked
handler panics, the deferred wait-group release still runs, but the panic is
not recovered: no error response is sent back and the panic terminates the
process (the receive loop does not survive). -/
theorem handler_panic_not_recovered (handlers : List (String × HandlerResult))
    (defaultHandler : Option HandlerResult) (command requestID msg : String)
    (h : effectiveHandler handlers defaultHandler command = some (.panics msg)) :
    runWorker handlers defaultHandler command requestID =
      ⟨true, none, false⟩ := by
  simp [runWorker, processCommand, h]

/-- Witness for `handler_panic_not_recovered` at the concrete panicking
handler registered for `"boom"`. -/
theorem handler_panic_not_recovered_witness :
    runWorker [("boom", .panics "kaboom")] none "boom" "py-7" = ⟨true, none, false⟩ :=
  handler_panic_not_recovered [("boom", .panics "kaboom")] none "boom" "py-7" "kaboom"
    (by decide)

/-- Claim C5: when the deadline of `ExecuteWithTimeout` fires on an open
REPL, the child is terminated, the REPL is marked closed and a timeout error
returned; afterwards every `Execute`, `ExecuteWithTimeout` or `Close` call
returns the channel-closed error without writing a submission or touching
the process. -/
theorem repl_timeout_closes_channel (st : REPLState) (combined combined' : Bool)
    (race : ReadRace) (outcome : Except REPLErr String) (h : st.closed = false) :
    (executeWithTimeoutStep st combined .deadline).result = .error .timedOut ∧
    (executeWithTimeoutStep st combined .deadline).terminated = true ∧
    (executeWithTimeoutStep st combined .deadline).state.closed = true ∧
    executeStep (executeWithTimeoutStep st combined .deadline).state combined' outcome =
      ⟨(executeWithTimeoutStep st combined .deadline).state,
        .error .channelClosed, false, false⟩ ∧
    executeWithTimeoutStep (executeWithTimeoutStep st combined .deadline).state
        combined' race =
      ⟨(executeWithTimeoutStep st combined .deadline).state,
        .error .channelClosed, false, false⟩ ∧
    closeStep (executeWithTimeoutStep st combined .deadline).state =
      ⟨(executeWithTimeoutStep st combined .deadline).state,
        .error .channelClosed, false, false⟩ := by
  simp [executeWithTimeoutStep, executeStep, closeStep, h]

/-- Witness for `repl_timeout_closes_channel` at a concrete open REPL
state. -/
theorem repl_timeout_closes_channel_witness :
    (executeWithTimeoutStep ⟨false, true⟩ true .deadline).result = .error .timedOut ∧
    (executeWithTimeoutStep ⟨false, true⟩ true .deadline).terminated = true ∧
    (executeWithTimeoutStep ⟨false, true⟩ true .deadline).state.closed = true ∧
    executeStep (executeWithTimeoutStep ⟨false, true⟩ true .deadline).state true (.ok "") =
      ⟨(executeWithTimeoutStep ⟨false, true⟩ true .deadline).state,
        .error .channelClosed, false, false⟩ ∧
    executeWithTimeoutStep (executeWithTimeoutStep ⟨false, true⟩ true .deadline).state
        true (.output "x") =
      ⟨(executeWithTimeoutStep ⟨false, true⟩ true .deadline).state,
        .error .channelClosed, false, false⟩ ∧
    closeStep (executeWithTimeoutStep ⟨false, true⟩ true .deadline).state =
      ⟨(executeWithTimeoutStep ⟨false, true⟩ true .deadline).state,
        .error .channelClosed, false, false⟩ :=
  repl_timeout_closes_channel ⟨false, true⟩ true true (.output "x") (.ok "") rfl

/-- Claim C7 (code bug): on a child that was never started `Terminate`
returns nil as claimed, but on a child that has already exited and been
waited on, `Terminate` returns the `os: process already finished` error from
`Process.Signal` instead of the nil its own doc comment promises — the
failing input for the claim's "already exited is a no-op returning nil". -/
theorem terminate_already_exited_bug :
    (terminateProc .notStarted true none).result = none ∧
    (terminateProc .exitedWaited true none).result = some .processDone ∧
    (terminateProc .exitedWaited true none).result ≠ none := by
  decide

/-- Claim C10: `MsgpackTransport.Flush` returns nil for every state of the
underlying writer; in particular a failing inner flush is discarded (the
error branch returns nil), so callers can never observe a flush failure. -/
theorem flush_always_nil (flusher : Option (Option String)) :
    transportFlush flusher = none := by
  rcases flusher with _ | _ | e <;> rfl

theorem occurs_eq_true_iff (pat s : List Char) : occurs pat s = true ↔ pat <:+: s := by
  induction s with
  | nil => simp [occurs, List.isEmpty_iff]
  | cons c rest ih =>
      rw [occurs]
      rw [Bool.or_eq_true, ih, List.infix_cons_iff]
      constructor
      · rintro (h | h)
        · exact Or.inl (by simpa using h)
        · exact Or.inr h
      · rintro (h | h)
        · exact Or.inl (by simpa using h)
        · exact Or.inr h

theorem concat_last_eq {xs ys : List Char} {x y : Char} (h : xs ++ [x] = ys ++ [y]) :
    x = y := by
  have h2 := List.append_inj' h rfl
  simpa using h2.2

theorem infix_concat_cases {x m : List Char} {a : Char} (h : x <:+: m ++ [a]) :
    x <:+: m ∨ x <:+ m ++ [a] := by
  obtain ⟨s, t, ht⟩ := h
  rcases List.eq_nil_or_concat t with rfl | ⟨t₂, b, rfl⟩
  · right
    exact ⟨s, by simpa using ht⟩
  · left
    have h2 : (s ++ x ++ t₂) ++ [b] = m ++ [a] := by
      simpa [List.append_assoc] using ht
    exact ⟨s, t₂, (List.append_inj' h2 rfl).1⟩

theorem noNl_append_no_delim (dInit acc : List Char) (_hne : '\n' ∉ dInit)
    (hacc : ¬ (dInit ++ ['\n']) <:+: acc) :
    ∀ l', '\n' ∉ l' → ¬ (dInit ++ ['\n']) <:+: acc ++ l' := by
  intro l'
  induction l' using List.reverseRecOn with
  | nil => intro _ h; exact hacc (by simpa using h)
  | append_singleton m a ih =>
      intro hl hinf
      have ha : a ≠ '\n' := by
        intro h; subst h; exact hl (by simp)
      have hm : '\n' ∉ m := fun h => hl (by simp [h])
      rw [← List.append_assoc] at hinf
      rcases infix_concat_cases hinf with h | h
      · exact ih hm h
      · obtain ⟨w, hw⟩ := h
        have h2 : (w ++ dInit) ++ ['\n'] = (acc ++ m) ++ [a] := by
          simpa [List.append_assoc] using hw
        exact ha (concat_last_eq h2).symm

theorem delim_occurrence_at_end (dInit acc l' s t : List Char) (hne : '\n' ∉ dInit)
    (hl : '\n' ∉ l') (hacc : ¬ (dInit ++ ['\n']) <:+: acc)
    (h : s ++ (dInit ++ ['\n']) ++ t = acc ++ l' ++ ['\n']) : t = [] := by
  rcases List.eq_nil_or_concat t with rfl | ⟨t₂, b, rfl⟩
  · rfl
  · exfalso
    have h2 : (s ++ (dInit ++ ['\n']) ++ t₂) ++ [b] = (acc ++ l') ++ ['\n'] := by
      simpa [List.append_assoc] using h
    have hm : s ++ (dInit ++ ['\n']) ++ t₂ = acc ++ l' := (List.append_inj' h2 rfl).1
    exact noNl_append_no_delim dInit acc hne hacc l' hl ⟨s, t₂, hm⟩

theorem stripped_no_delim (dInit acc l' w : List Char) (hne : '\n' ∉ dInit)
    (hl : '\n' ∉ l') (hacc : ¬ (dInit ++ ['\n']) <:+: acc)
    (h : acc ++ l' ++ ['\n'] = w ++ (dInit ++ ['\n'])) :
    ¬ (dInit ++ ['\n']) <:+: w := by
  rintro ⟨s, t, hw⟩
  have h2 : s ++ (dInit ++ ['\n']) ++ (t ++ (dInit ++ ['\n'])) = acc ++ l' ++ ['\n'] := by
    rw [h, ← hw]
    simp [List.append_assoc]
  have h3 := delim_occurrence_at_end dInit acc l' s (t ++ (dInit ++ ['\n'])) hne hl hacc h2
  simp at h3

theorem not_infix_of_not_suffix (dInit acc l' : List Char) (hne : '\n' ∉ dInit)
    (hl : '\n' ∉ l') (hacc : ¬ (dInit ++ ['\n']) <:+: acc)
    (hns : ¬ (dInit ++ ['\n']) <:+ (acc ++ l' ++ ['\n'])) :
    ¬ (dInit ++ ['\n']) <:+: (acc ++ l' ++ ['\n']) := by
  rintro ⟨s, t, hinf⟩
  have ht := delim_occurrence_at_end dInit acc l' s t hne hl hacc hinf
  subst ht
  exact hns ⟨s, by simpa [List.append_assoc] using hinf⟩

theorem readLine_found_shape :
    ∀ s : List Char, (readLine s).2.2 = true →
      ∃ l', (readLine s).1 = l' ++ ['\n'] ∧ '\n' ∉ l' := by
  intro s
  induction s with
  | nil => intro h; simp [readLine] at h
  | cons c cs ih =>
      intro h
      by_cases hc : c = '\n'
      · exact ⟨[], by simp [readLine, hc], by simp⟩
      · rw [readLine] at h
        rw [if_neg hc] at h
        obtain ⟨l', hl, hn⟩ := ih h
        refine ⟨c :: l', ?_, ?_⟩
        · rw [readLine, if_neg hc]
          simp [hl]
        · simp [hn]
          exact fun h2 => hc h2.symm

theorem readLine_notFound_noNl :
    ∀ s : List Char, (readLine s).2.2 = false → '\n' ∉ (readLine s).1 := by
  intro s
  induction s with
  | nil => intro _; simp [readLine]
  | cons c cs ih =>
      intro h
      by_cases hc : c = '\n'
      · rw [readLine, if_pos hc] at h
        cases h
      · rw [readLine, if_neg hc] at h ⊢
        simp only [List.mem_cons, not_or]
        exact ⟨fun h2 => hc h2.symm, ih h⟩

theorem goTrimSuffix_of_append (w suf : List Char) :
    goTrimSuffix (w ++ suf) suf = w := by
  rw [goTrimSuffix, if_pos ⟨w, rfl⟩]
  simp

theorem goTrimRight_pre (l cut : List Char) : ∃ t, goTrimRight l cut ++ t = l := by
  refine ⟨(l.reverse.takeWhile (fun c => cut.contains c)).reverse, ?_⟩
  rw [goTrimRight, ← List.reverse_append, List.takeWhile_append_dropWhile,
    List.reverse_reverse]

theorem infix_of_append_left {x w t z : List Char} (h : x <:+: w) (hz : w ++ t = z) :
    x <:+: z := by
  obtain ⟨s, u, hw⟩ := h
  exact ⟨s, u ++ t, by rw [← hz, ← hw]; simp [List.append_assoc]⟩

theorem readLoopFuel_no_occurrence (dInit : List Char) (hne : '\n' ∉ dInit) :
    ∀ (fuel : Nat) (acc stream out : List Char),
      ¬ (dInit ++ ['\n']) <:+: acc →
      readLoopFuel (dInit ++ ['\n']) fuel acc stream = some out →
      ¬ (dInit ++ ['\n']) <:+: out := by
  intro fuel
  induction fuel with
  | zero => intro acc stream out _ h; simp [readLoopFuel] at h
  | succ fuel ih =>
      intro acc stream out hacc h
      rw [readLoopFuel] at h
      by_cases hsuf : (dInit ++ ['\n']) <:+ (acc ++ (readLine stream).1)
      · rw [if_pos hsuf] at h
        obtain ⟨w, hw⟩ := hsuf
        by_cases hf : (readLine stream).2.2 = true
        · obtain ⟨l', hline, hl'⟩ := readLine_found_shape stream hf
          rw [hline] at hw
          have hwfree := stripped_no_delim dInit acc l' w hne hl' hacc
            (by rw [List.append_assoc]; exact hw.symm)
          have hstrip : stripDelim (dInit ++ ['\n']) (acc ++ (readLine stream).1) =
              goTrimRight w ['\n', '\r'] := by
            rw [stripDelim, hline, ← hw, goTrimSuffix_of_append]
          rw [hstrip] at h
          have hout : out = goTrimRight w ['\n', '\r'] := (Option.some_inj.mp h).symm
          subst hout
          obtain ⟨t, htp⟩ := goTrimRight_pre w ['\n', '\r']
          intro hocc
          exact hwfree (infix_of_append_left hocc htp)
        · have hnl := readLine_notFound_noNl stream (by simpa using hf)
          have : (dInit ++ ['\n']) <:+: acc ++ (readLine stream).1 :=
            ⟨w, [], by simpa using hw⟩
          exact absurd this (noNl_append_no_delim dInit acc hne hacc _ hnl)
      · rw [if_neg hsuf] at h
        by_cases hf : (readLine stream).2.2 = true
        · rw [hf, if_pos rfl] at h
          obtain ⟨l', hline, hl'⟩ := readLine_found_shape stream hf
          have hacc' : ¬ (dInit ++ ['\n']) <:+: acc ++ (readLine stream).1 := by
            rw [hline, ← List.append_assoc]
            refine not_infix_of_not_suffix dInit acc l' hne hl' hacc ?_
            rw [List.append_assoc, ← hline]
            exact hsuf
          exact ih (acc ++ (readLine stream).1) (readLine stream).2.1 out hacc' h
        · rw [Bool.not_eq_true] at hf
          rw [hf] at h
          simp at h

/-- Claim C8: an `Execute` read that returns successfully never returns text
containing the sentinel: on Unix the output contains no occurrence of
`DELIMITER`, and with the Windows delimiter no occurrence of
`WINDELIMITER` — the loop stops at the first buffer ending with the
sentinel and strips it together with trailing newline characters. -/
theorem repl_output_no_sentinel (stream out : List Char) :
    (executeReadOutput stream = some out → occurs DELIMITER out = false) ∧
    (executeReadOutputWin stream = some out → occurs WINDELIMITER out = false) := by
  constructor
  · intro h
    have hrun : readLoopFuel (['\x01', '\x02', '\x03'] ++ ['\n'])
        (stream.length + 1) [] stream = some out := h
    have hni := readLoopFuel_no_occurrence ['\x01', '\x02', '\x03'] (by decide)
      (stream.length + 1) [] stream out (by rintro ⟨s, t, hx⟩; simp at hx) hrun
    cases hoc : occurs DELIMITER out
    · rfl
    · exact absurd ((occurs_eq_true_iff DELIMITER out).mp hoc) hni
  · intro h
    have hrun : readLoopFuel (['\x01', '\x02', '\x03', '\r'] ++ ['\n'])
        (stream.length + 1) [] stream = some out := h
    have hni := readLoopFuel_no_occurrence ['\x01', '\x02', '\x03', '\r'] (by decide)
      (stream.length + 1) [] stream out (by rintro ⟨s, t, hx⟩; simp at hx) hrun
    cases hoc : occurs WINDELIMITER out
    · rfl
    · exact absurd ((occurs_eq_true_iff WINDELIMITER out).mp hoc) hni

/-- Witness for `repl_output_no_sentinel` on the concrete streams
`"hi\n" ++ DELIMITER` and `"hi\r\n" ++ WINDELIMITER`, both of which the
loop answers with output `"hi"`. -/
theorem repl_output_no_sentinel_witness :
    occurs DELIMITER ['h', 'i'] = false ∧ occurs WINDELIMITER ['h', 'i'] = false :=
  ⟨(repl_output_no_sentinel ['h', 'i', '\n', '\x01', '\x02', '\x03', '\n']
      ['h', 'i']).1 (by decide),
   (repl_output_no_sentinel ['h', 'i', '\r', '\n', '\x01', '\x02', '\x03', '\r', '\n']
      ['h', 'i']).2 (by decide)⟩

theorem digitChar_toNat {d : Nat} (h : d < 10) : (digitChar d).toNat = 48 + d := by
  interval_cases d <;> decide

theorem digitsVal_append_digit (l : List Char) (c : Char) :
    digitsVal (l ++ [c]) = 10 * digitsVal l + (c.toNat - 48) := by
  rw [digitsVal, List.foldl_append]
  rfl

theorem digitsVal_goDigitsAux :
    ∀ fuel n, n < fuel → digitsVal (goDigitsAux fuel n) = n := by
  intro fuel
  induction fuel with
  | zero => intro n h; omega
  | succ fuel ih =>
      intro n h
      rw [goDigitsAux]
      by_cases h10 : n < 10
      · rw [if_pos h10]
        show digitsVal [digitChar n] = n
        rw [digitsVal]
        simp [List.foldl, digitChar_toNat h10]
      · rw [if_neg h10]
        have hdiv : n / 10 < n := Nat.div_lt_self (by omega) (by omega)
        rw [digitsVal_append_digit, ih (n / 10) (by omega),
          digitChar_toNat (Nat.mod_lt _ (by omega))]
        omega

theorem goDigits_inj {a b : Nat} (h : goDigits a = goDigits b) : a = b := by
  have ha : digitsVal (goDigits a) = a := digitsVal_goDigitsAux (a + 1) a (by omega)
  have hb : digitsVal (goDigits b) = b := digitsVal_goDigitsAux (b + 1) b (by omega)
  rw [← ha, ← hb, h]

theorem goDigitsAux_digit_range :
    ∀ fuel n c, c ∈ goDigitsAux fuel n → 48 ≤ c.toNat ∧ c.toNat ≤ 57 := by
  intro fuel
  induction fuel with
  | zero => intro n c h; simp [goDigitsAux] at h
  | succ fuel ih =>
      intro n c h
      rw [goDigitsAux] at h
      by_cases h10 : n < 10
      · rw [if_pos h10] at h
        simp at h
        subst h
        rw [digitChar_toNat h10]
        omega
      · rw [if_neg h10] at h
        rcases List.mem_append.mp h with h2 | h2
        · exact ih (n / 10) c h2
        · simp at h2
          subst h2
          rw [digitChar_toNat (Nat.mod_lt _ (by omega))]
          have := Nat.mod_lt n (show 0 < 10 by omega)
          omega

theorem goFormatInt_inj (a b : Int) (h : goFormatInt a = goFormatInt b) : a = b := by
  rw [goFormatInt, goFormatInt] at h
  by_cases ha : a < 0 <;> by_cases hb : b < 0
  · rw [if_pos ha, if_pos hb] at h
    have h2 : goDigits a.natAbs = goDigits b.natAbs := by simpa using h
    have := goDigits_inj h2
    omega
  · rw [if_pos ha, if_neg hb] at h
    exfalso
    have hmem : '-' ∈ goDigits b.toNat := by
      rw [← h]; exact List.mem_cons_self _ _
    have hr := goDigitsAux_digit_range _ _ _ hmem
    revert hr
    decide
  · rw [if_neg ha, if_pos hb] at h
    exfalso
    have hmem : '-' ∈ goDigits a.toNat := by
      rw [h]; exact List.mem_cons_self _ _
    have hr := goDigitsAux_digit_range _ _ _ hmem
    revert hr
    decide
  · rw [if_neg ha, if_neg hb] at h
    have := goDigits_inj h
    omega

theorem wrap64_wrap64_add (a b : Int) : wrap64 (wrap64 a + b) = wrap64 (a + b) := by
  unfold wrap64
  omega

theorem nextIDAfter_eq (n : Nat) : nextIDAfter n = wrap64 (1 + n) := by
  induction n with
  | zero => norm_num [nextIDAfter, wrap64]
  | succ n ih =>
      rw [nextIDAfter, ih, wrap64_wrap64_add]
      congr 1

theorem wrap64_window_ne (i j : Nat) (hi : i < 2 ^ 64) (hj : j < 2 ^ 64) (hij : i ≠ j) :
    wrap64 (1 + i) ≠ wrap64 (1 + j) := by
  unfold wrap64
  omega

/-- Counterexample to claim C9 as stated: `nextID` is a Go `int64` and
wraps modulo `2^64`, so the universal uniqueness claim fails — call number
`2^64` returns the same id `"req-1"` as call number 0. -/
theorem request_id_unique_cex : requestIDAt 0 = requestIDAt (2 ^ 64) := by
  rw [requestIDAt, requestIDAt, nextIDAfter_eq 0, nextIDAfter_eq (2 ^ 64)]
  norm_num [wrap64]

/-- Claim C9 (amended): request ids are distinct for every two distinct
calls among the first `2^64` (the `int64` counter wraps modulo `2^64`, so
in particular ids are unique for any realistic instance lifetime). -/
theorem request_id_unique (i j : Nat) (hi : i < 2 ^ 64) (hj : j < 2 ^ 64)
    (hij : i ≠ j) : requestIDAt i ≠ requestIDAt j := by
  intro h
  have hdata : goFormatInt (nextIDAfter i) = goFormatInt (nextIDAfter j) := by
    have h2 := congrArg String.data h
    simpa [requestIDAt] using h2
  have heq := goFormatInt_inj _ _ hdata
  rw [nextIDAfter_eq, nextIDAfter_eq] at heq
  exact wrap64_window_ne i j hi hj hij heq

/-- Witness for `request_id_unique`: the first two calls return the
distinct ids `"req-1"` and `"req-2"`. -/
theorem request_id_unique_witness : requestIDAt 0 ≠ requestIDAt 1 :=
  request_id_unique 0 1 (by norm_num) (by norm_num) (by norm_num)

end Jumpboot
